import Mathlib

/-!
Verification of `hatenablog2hugo` (`src/main.go`) against its specification.

The repository is a single Go file.  It calls `parser.Parse` from the external
`mtexport` library to obtain an AST (the closed variant set described in the
spec: `EntryStmt`, `NormalSectionStmt`, `MultilineSectionStmt`, `FieldStmt`),
and then converts each entry into a Hugo content file.

This file shallowly embeds the consumer side that lives in `src/main.go`:

* `Data`, `TagsAsString`, `MarkdownFilename` (the output record and helpers);
* `processField` / `parseFieldSection` (Go `parseFieldSection`);
* `parseSections` / `parseStmt` (Go `parseStmt`);
* `genOutput` (the pure core of Go `genOutput`: the render decision;
  filesystem writes and the template engine are outside the embedding, so a
  successful render is represented by the output filename and the `Data`
  handed to the template);
* `runBatch` / `mainRun` (the batch loop of Go `_main`; the parse result of
  the external `parser.Parse` call enters `mainRun` as an explicit
  `Except` value).

Go library functions used by `main.go` are embedded as well:

* `trimSpace` mirrors `strings.TrimSpace` (Unicode spaces restricted to the
  Latin-1 range that `unicode.IsSpace` recognises there);
* `stringToLower` mirrors `strings.ToLower` on the ASCII range (the only
  range the program compares against);
* `parseInLocation` mirrors `time.ParseInLocation` specialised to the one
  layout the program uses, `"01/02/2006 15:04:05"`: fixed two-digit month,
  day, minute and second, a one-or-two-digit hour, a four-digit year, the
  literal separators, Go's range checks (month 1..12, day against the month
  length including leap years, hour < 24, minute < 60, second < 60) and the
  trailing-text check.  `GoTime` records the parsed fields together with the
  location that `ParseInLocation` attaches.

Go `panic` sites in `parseStmt` (the type assertion on the entry and the
`default: panic("not reach")` arm) are represented as `Except.error` values
whose message starts with `panic:`; no claim touches those branches.
-/

/-- The `mtexport` AST: a closed variant set.  In Go these are four struct
types implementing `ast.Stmt`; `EntryStmt.SectionStmts` and
`NormalSectionStmt.FieldStmts` are both `[]ast.Stmt`, which the consumer
narrows by type switches, so a single inductive models the open interface
faithfully. -/
inductive Stmt where
  | entryStmt (sectionStmts : List Stmt) : Stmt
  | normalSectionStmt (fieldStmts : List Stmt) : Stmt
  | multilineSectionStmt (key : String) (body : String) : Stmt
  | fieldStmt (key : String) (value : String) : Stmt

/-- True exactly on the `FieldStmt` variant (the Go type assertion
`_stmt.(*ast.FieldStmt)` succeeding). -/
def isFieldStmt : Stmt → Bool
  | .fieldStmt _ _ => true
  | _ => false

/-- Characters `unicode.IsSpace` recognises in the Latin-1 range; this is
what `strings.TrimSpace` strips for the inputs this program sees. -/
def isGoSpace (c : Char) : Bool :=
  c = ' ' || c = '\t' || c = '\n' || c.toNat = 11 || c.toNat = 12 || c = '\r' ||
    c.toNat = 0x85 || c.toNat = 0xA0

/-- Drop leading Go whitespace from a character list. -/
def dropSpaceLeft : List Char → List Char
  | [] => []
  | c :: rest => if isGoSpace c then dropSpaceLeft rest else c :: rest

/-- Go `strings.TrimSpace`: strip leading and trailing whitespace. -/
def trimSpace (s : String) : String :=
  String.mk (dropSpaceLeft (dropSpaceLeft s.data.reverse).reverse)

/-- Go `unicode.ToLower` restricted to ASCII, the only range the program
compares against (`"draft"`, `"publish"`). -/
def lowerChar (c : Char) : Char :=
  if 'A' ≤ c && c ≤ 'Z' then Char.ofNat (c.toNat + 32) else c

/-- Go `strings.ToLower` on the ASCII range. -/
def stringToLower (s : String) : String :=
  String.mk (s.data.map lowerChar)

/-- Numeric value of a decimal digit character. -/
def digitVal (c : Char) : Nat := c.toNat - 48

/-- Go `getnum(value, true)`: exactly two decimal digits. -/
def getnum2 : List Char → Option (Nat × List Char)
  | c1 :: c2 :: rest =>
      if c1.isDigit && c2.isDigit then some (digitVal c1 * 10 + digitVal c2, rest)
      else none
  | _ => none

/-- Go `getnum(value, false)`: one or two decimal digits. -/
def getnum12 : List Char → Option (Nat × List Char)
  | [] => none
  | [c1] => if c1.isDigit then some (digitVal c1, []) else none
  | c1 :: c2 :: rest =>
      if c1.isDigit then
        if c2.isDigit then some (digitVal c1 * 10 + digitVal c2, rest)
        else some (digitVal c1, c2 :: rest)
      else none

/-- Go's `stdLongYear` scan: exactly four decimal digits. -/
def getnum4 : List Char → Option (Nat × List Char)
  | a :: b :: c :: d :: rest =>
      if a.isDigit && b.isDigit && c.isDigit && d.isDigit then
        some (((digitVal a * 10 + digitVal b) * 10 + digitVal c) * 10 + digitVal d, rest)
      else none
  | _ => none

/-- Consume one expected literal layout character. -/
def expectChar (c : Char) : List Char → Option (List Char)
  | x :: rest => if x = c then some rest else none
  | [] => none

/-- Go leap-year rule (`isLeap` in `time`). -/
def isLeap (y : Nat) : Bool :=
  y % 4 == 0 && (y % 100 != 0 || y % 400 == 0)

/-- Go `daysIn`: number of days of month `m` in year `y`. -/
def daysIn (m y : Nat) : Nat :=
  if m == 2 then (if isLeap y then 29 else 28)
  else if m == 4 || m == 6 || m == 9 || m == 11 then 30
  else 31

/-- Result of `time.ParseInLocation`: the broken-down time plus the location
the value was interpreted in. -/
structure GoTime where
  year : Nat
  month : Nat
  day : Nat
  hour : Nat
  minute : Nat
  second : Nat
  loc : String
deriving Repr, DecidableEq

/-- Go `time.ParseInLocation("01/02/2006 15:04:05", value, loc)`: scan the
fixed layout, then apply Go's validity checks; any failure (bad shape, extra
trailing text, out-of-range component) is an error, modelled as `none`. -/
def parseInLocation (value loc : String) : Option GoTime :=
  (getnum2 value.data).bind fun p1 =>
  (expectChar '/' p1.2).bind fun s2 =>
  (getnum2 s2).bind fun p2 =>
  (expectChar '/' p2.2).bind fun s3 =>
  (getnum4 s3).bind fun p3 =>
  (expectChar ' ' p3.2).bind fun s4 =>
  (getnum12 s4).bind fun p4 =>
  (expectChar ':' p4.2).bind fun s5 =>
  (getnum2 s5).bind fun p5 =>
  (expectChar ':' p5.2).bind fun s6 =>
  (getnum2 s6).bind fun p6 =>
  if p6.2 = [] ∧ 1 ≤ p1.1 ∧ p1.1 ≤ 12 ∧ 1 ≤ p2.1 ∧ p2.1 ≤ daysIn p1.1 p3.1 ∧
      p4.1 < 24 ∧ p5.1 < 60 ∧ p6.1 < 60 then
    some ⟨p3.1, p1.1, p2.1, p4.1, p5.1, p6.1, loc⟩
  else none

/-- The Go `Data` struct filled by `parseStmt`.  The zero value of
`time.Time` is modelled by `none`. -/
structure Data where
  basename : String := ""
  tags : List String := []
  draft : Bool := false
  title : String := ""
  date : Option GoTime := none
  content : String := ""
deriving Repr, DecidableEq

/-- Go `strings.Join`. -/
def goJoin (sep : String) : List String → String
  | [] => ""
  | [x] => x
  | x :: y :: rest => x ++ sep ++ goJoin sep (y :: rest)

/-- Go `(*Data).TagsAsString`: quote each tag in a loop, then join with
`", "` inside square brackets. -/
def tagsAsString (d : Data) : String :=
  "[" ++ goJoin ", " (d.tags.foldl (fun acc tag => acc ++ ["\"" ++ tag ++ "\""]) []) ++ "]"

/-- Go `(*Data).MarkdownFilename` (with `filepath.Join` as plain
concatenation, the behaviour on the program's non-empty clean inputs). -/
def markdownFilename (d : Data) (outputDir : String) : String :=
  outputDir ++ "/" ++ d.basename ++ ".md"

/-- One iteration of Go `parseFieldSection`'s field loop: the `switch` on
`field.Key` with `value := strings.TrimSpace(field.Value)`. -/
def processField (loc : String) (data : Data) (key value : String) : Except String Data :=
  if key = "TITLE" then .ok { data with title := trimSpace value }
  else if key = "STATUS" then
    if stringToLower (trimSpace value) = "draft" then .ok { data with draft := true }
    else if stringToLower (trimSpace value) = "publish" then .ok { data with draft := false }
    else .error ("not supported status: " ++ trimSpace value)
  else if key = "DATE" then
    match parseInLocation (trimSpace value) loc with
    | some t => .ok { data with date := some t }
    | none => .error ("parsing time: " ++ trimSpace value)
  else if key = "BASENAME" then .ok { data with basename := trimSpace value }
  else if key = "CATEGORY" then .ok { data with tags := data.tags ++ [trimSpace value] }
  else .ok data

/-- Go `parseFieldSection`: walk `stmt.FieldStmts`; a non-`FieldStmt`
element makes the function return `nil` (success) at once, keeping the data
accumulated so far; a field error aborts with that error. -/
def parseFieldSection (loc : String) : List Stmt → Data → Except String Data
  | [], data => .ok data
  | .fieldStmt key value :: rest, data =>
      match processField loc data key value with
      | .ok d => parseFieldSection loc rest d
      | .error e => .error e
  | _ :: _, data => .ok data

/-- The section loop of Go `parseStmt`: the type switch over
`entry.SectionStmts` and the key switch over multiline sections.  The
`panic("not reach")` arm for nested entry/field statements is modelled as an
error tagged `panic:`. -/
def parseSections (loc : String) : List Stmt → Data → Except String Data
  | [], data => .ok data
  | .normalSectionStmt fields :: rest, data =>
      match parseFieldSection loc fields data with
      | .ok d => parseSections loc rest d
      | .error e => .error e
  | .multilineSectionStmt key body :: rest, data =>
      if key = "BODY" then parseSections loc rest { data with content := body }
      else if key = "COMMENT" then parseSections loc rest data
      else if key = "EXCERPT" then parseSections loc rest data
      else .error ("not supported multiline section key: " ++ key)
  | .entryStmt _ :: _, _ => .error "panic: not reach"
  | .fieldStmt _ _ :: _, _ => .error "panic: not reach"

/-- Go `parseStmt`: assert the statement is an `*ast.EntryStmt` (a failed
assertion panics, modelled as a `panic:`-tagged error) and fold its sections
into a fresh `Data`. -/
def parseStmt (loc : String) : Stmt → Except String Data
  | .entryStmt sections => parseSections loc sections {}
  | _ => .error "panic: interface conversion"

/-- Pure core of Go `genOutput`: parse the entry; on success the entry is
rendered to `data.MarkdownFilename(outputDir)`.  Filesystem and template
effects are outside the embedding, so success carries the filename and the
`Data` handed to the template. -/
def genOutput (loc outputDir : String) (stmt : Stmt) : Except String (String × Data) :=
  match parseStmt loc stmt with
  | .ok d => .ok (markdownFilename d outputDir, d)
  | .error e => .error e

/-- The batch loop of Go `_main`: each entry is handed to `genOutput`; an
error is logged (`log.Println("got error:", err)`) and the loop continues.
Returns the log lines and the successful outputs, both in input order. -/
def runBatch (loc outputDir : String) : List Stmt → List String × List (String × Data)
  | [] => ([], [])
  | s :: rest =>
      match genOutput loc outputDir s with
      | .ok o => ((runBatch loc outputDir rest).1, o :: (runBatch loc outputDir rest).2)
      | .error e =>
          (("got error: " ++ e) :: (runBatch loc outputDir rest).1,
            (runBatch loc outputDir rest).2)

/-- Go `_main` downstream of `parser.Parse`: a parse error is returned
unchanged before any entry is rendered; otherwise the batch loop runs and
`_main` returns `nil` (success). -/
def mainRun (loc outputDir : String) (parseResult : Except String (List Stmt)) :
    Except String (List String × List (String × Data)) :=
  match parseResult with
  | .error e => .error e
  | .ok stmts => .ok (runBatch loc outputDir stmts)

/-- The trimmed values of the `CATEGORY` fields of a field list, in order of
appearance. -/
def categoryValues : List Stmt → List String
  | [] => []
  | .fieldStmt key value :: rest =>
      if key = "CATEGORY" then trimSpace value :: categoryValues rest
      else categoryValues rest
  | _ :: rest => categoryValues rest

example : parseStmt "Asia/Tokyo" (.entryStmt [.multilineSectionStmt "IMAGE" "x"])
    = .error "not supported multiline section key: IMAGE" := rfl

example : processField "Asia/Tokyo" {} "STATUS" "Publish" = .ok {} := rfl

example : parseInLocation "03/15/2020 10:30:05" "Asia/Tokyo"
    = some ⟨2020, 3, 15, 10, 30, 5, "Asia/Tokyo"⟩ := rfl

example : parseInLocation "02/30/2020 10:30:05" "Asia/Tokyo" = none := rfl

example : parseInLocation "02/29/2020 5:30:05" "UTC"
    = some ⟨2020, 2, 29, 5, 30, 5, "UTC"⟩ := rfl

example : parseInLocation "02/29/2019 05:30:05" "UTC" = none := rfl

example : trimSpace "  a b\t " = "a b" := rfl

example : stringToLower "PubLish" = "publish" := rfl

example : tagsAsString { tags := ["a", "b"] } = "[\"a\", \"b\"]" := rfl

example : tagsAsString {} = "[]" := rfl

lemma runBatch_append (loc dir : String) (l₁ l₂ : List Stmt) :
    runBatch loc dir (l₁ ++ l₂)
      = ((runBatch loc dir l₁).1 ++ (runBatch loc dir l₂).1,
         (runBatch loc dir l₁).2 ++ (runBatch loc dir l₂).2) := by
  induction l₁ with
  | nil => simp [runBatch]
  | cons s rest ih =>
    simp only [List.cons_append, runBatch]
    cases genOutput loc dir s <;> simp [ih]

/-- Claim C6: a structural parse error makes the whole run abort: `_main`
returns the error of `parser.Parse` unchanged, before any entry is rendered
and before any output is produced. -/
theorem structural_error_aborts_run (loc dir e : String) :
    mainRun loc dir (.error e) = .error e := rfl

/-- Claim C2: the batch loop of `_main` processes entries independently.
When `genOutput` fails on one entry, the run still returns success, the
failing entry's output is skipped (the outputs are exactly those of the
entries before and after it), and the error is logged in position. -/
theorem batch_continues_on_entry_error (loc dir : String) (pre post : List Stmt)
    (s : Stmt) (e : String) (h : genOutput loc dir s = .error e) :
    mainRun loc dir (.ok (pre ++ s :: post)) = .ok (runBatch loc dir (pre ++ s :: post)) ∧
    (runBatch loc dir (pre ++ s :: post)).2
      = (runBatch loc dir pre).2 ++ (runBatch loc dir post).2 ∧
    (runBatch loc dir (pre ++ s :: post)).1
      = (runBatch loc dir pre).1 ++ ("got error: " ++ e) :: (runBatch loc dir post).1 := by
  refine ⟨rfl, ?_, ?_⟩
  · rw [runBatch_append]
    simp [runBatch, h]
  · rw [runBatch_append]
    simp [runBatch, h]

/-- Witness for claim C2: a batch of two entries where the first fails on an
`IMAGE` multiline section; the log holds exactly that error, between the
(empty) logs of the entries before and after it. -/
theorem batch_continues_on_entry_error_witness :
    (runBatch "Asia/Tokyo" "content"
        (([] : List Stmt) ++ Stmt.entryStmt [Stmt.multilineSectionStmt "IMAGE" ""] ::
          [Stmt.entryStmt [Stmt.normalSectionStmt [Stmt.fieldStmt "TITLE" "t"]]])).1
      = (runBatch "Asia/Tokyo" "content" []).1 ++
        ("got error: " ++ "not supported multiline section key: IMAGE") ::
          (runBatch "Asia/Tokyo" "content"
            [Stmt.entryStmt [Stmt.normalSectionStmt [Stmt.fieldStmt "TITLE" "t"]]]).1 :=
  (batch_continues_on_entry_error "Asia/Tokyo" "content" []
    [Stmt.entryStmt [Stmt.normalSectionStmt [Stmt.fieldStmt "TITLE" "t"]]]
    (Stmt.entryStmt [Stmt.multilineSectionStmt "IMAGE" ""])
    "not supported multiline section key: IMAGE" rfl).2.2

/-- Counterexample to claim C1: the caller-registered extra multiline key
`IMAGE` is not ignored by `parseStmt`; it hits the `default` arm of the key
switch and fails the entry with a semantic error. -/
theorem image_section_rejected :
    parseStmt "Asia/Tokyo" (Stmt.entryStmt [Stmt.multilineSectionStmt "IMAGE" "attachment"])
      = .error "not supported multiline section key: IMAGE" := rfl

/-- Claim C1 (amended): a `MultilineSectionStmt` with key `COMMENT` or
`EXCERPT` is ignored (the section loop continues with the data unchanged),
while every multiline key other than `BODY`, `COMMENT`, `EXCERPT` —
including the caller-registered extra key `IMAGE` — is a semantic error for
that entry. -/
theorem multiline_key_dispatch (loc key body : String) (rest : List Stmt) (data : Data) :
    (key = "COMMENT" ∨ key = "EXCERPT" →
      parseSections loc (Stmt.multilineSectionStmt key body :: rest) data
        = parseSections loc rest data) ∧
    (key ≠ "BODY" → key ≠ "COMMENT" → key ≠ "EXCERPT" →
      parseSections loc (Stmt.multilineSectionStmt key body :: rest) data
        = .error ("not supported multiline section key: " ++ key)) := by
  constructor
  · rintro (rfl | rfl) <;> rfl
  · intro h1 h2 h3
    simp [parseSections, h1, h2, h3]

/-- Witness for claim C1 (amended): a `COMMENT` section is skipped; an
`IMAGE` section is a semantic error. -/
theorem multiline_key_dispatch_witness :
    parseSections "UTC" [Stmt.multilineSectionStmt "COMMENT" "c"] {}
        = parseSections "UTC" [] ({} : Data) ∧
    parseSections "UTC" [Stmt.multilineSectionStmt "IMAGE" "i"] {}
        = .error ("not supported multiline section key: " ++ "IMAGE") :=
  ⟨(multiline_key_dispatch "UTC" "COMMENT" "c" [] {}).1 (Or.inl rfl),
   (multiline_key_dispatch "UTC" "IMAGE" "i" [] {}).2
     (by decide) (by decide) (by decide)⟩

/-- Counterexample to claim C3: the status value `Publish` is neither
`draft` nor `publish`, yet it is not a semantic error — the code lowercases
before comparing, so it is accepted and clears the draft flag. -/
theorem status_capital_publish_accepted :
    parseFieldSection "Asia/Tokyo" [Stmt.fieldStmt "STATUS" "Publish"] { draft := true }
      = .ok ({ draft := false } : Data) := rfl

/-- Claim C3 (amended): status matching is case-insensitive on the trimmed
value: lowercased `draft` sets the draft flag, lowercased `publish` clears
it, and anything else is a semantic error that fails `parseStmt` for that
entry only. -/
theorem status_field_case_insensitive (loc v : String) (data : Data) :
    (stringToLower (trimSpace v) = "draft" →
      processField loc data "STATUS" v = .ok { data with draft := true }) ∧
    (stringToLower (trimSpace v) = "publish" →
      processField loc data "STATUS" v = .ok { data with draft := false }) ∧
    (stringToLower (trimSpace v) ≠ "draft" → stringToLower (trimSpace v) ≠ "publish" →
      processField loc data "STATUS" v = .error ("not supported status: " ++ trimSpace v) ∧
      parseStmt loc (Stmt.entryStmt [Stmt.normalSectionStmt [Stmt.fieldStmt "STATUS" v]])
        = .error ("not supported status: " ++ trimSpace v)) := by
  refine ⟨?_, ?_, ?_⟩
  · intro h
    simp [processField, h]
  · intro h
    simp [processField, h]
  · intro h1 h2
    constructor
    · simp [processField, h1, h2]
    · simp [parseStmt, parseSections, parseFieldSection, processField, h1, h2]

/-- Witness for claim C3 (amended): `" Draft "` trims and lowercases to
`draft` and sets the flag. -/
theorem status_field_case_insensitive_witness :
    processField "UTC" ({} : Data) "STATUS" " Draft " = .ok { draft := true } :=
  (status_field_case_insensitive "UTC" " Draft " {}).1 rfl

lemma parseInLocation_loc (value loc : String) (t : GoTime)
    (h : parseInLocation value loc = some t) : t.loc = loc := by
  unfold parseInLocation at h
  simp only [Option.bind_eq_some] at h
  obtain ⟨p1, -, s2, -, p2, -, s3, -, p3, -, s4, -, p4, -, s5, -, p5, -, s6, -, p6, -, h⟩ := h
  split at h
  · simp only [Option.some.injEq] at h
    subst h
    rfl
  · simp at h

/-- Claim C4: a `DATE` field is interpreted by Go's
`time.ParseInLocation` with the fixed layout `01/02/2006 15:04:05` on the
trimmed value, in the location configured for the run; a value that does not
parse under that layout is an error for that entry only — the batch still
returns success and only that entry's output is missing. -/
theorem date_field_parse (loc v : String) (data : Data) :
    (∀ t, parseInLocation (trimSpace v) loc = some t →
      processField loc data "DATE" v = .ok { data with date := some t } ∧ t.loc = loc) ∧
    (parseInLocation (trimSpace v) loc = none →
      processField loc data "DATE" v = .error ("parsing time: " ++ trimSpace v) ∧
      ∀ dir rest,
        mainRun loc dir
            (.ok (Stmt.entryStmt [Stmt.normalSectionStmt [Stmt.fieldStmt "DATE" v]] :: rest))
          = .ok (runBatch loc dir
              (Stmt.entryStmt [Stmt.normalSectionStmt [Stmt.fieldStmt "DATE" v]] :: rest)) ∧
        (runBatch loc dir
            (Stmt.entryStmt [Stmt.normalSectionStmt [Stmt.fieldStmt "DATE" v]] :: rest)).2
          = (runBatch loc dir rest).2) := by
  constructor
  · intro t ht
    exact ⟨by simp [processField, ht], parseInLocation_loc _ _ _ ht⟩
  · intro hn
    refine ⟨by simp [processField, hn], ?_⟩
    intro dir rest
    refine ⟨rfl, ?_⟩
    have hg : genOutput loc dir
        (Stmt.entryStmt [Stmt.normalSectionStmt [Stmt.fieldStmt "DATE" v]])
        = .error ("parsing time: " ++ trimSpace v) := by
      simp [genOutput, parseStmt, parseSections, parseFieldSection, processField, hn]
    simp [runBatch, hg]

/-- Witness for claim C4: a concrete date field with surrounding whitespace
parses under the fixed layout and lands in the configured location. -/
theorem date_field_parse_witness :
    processField "Asia/Tokyo" ({} : Data) "DATE" " 03/15/2020 10:30:05 "
      = .ok { date := some ⟨2020, 3, 15, 10, 30, 5, "Asia/Tokyo"⟩ } :=
  ((date_field_parse "Asia/Tokyo" " 03/15/2020 10:30:05 " {}).1
    ⟨2020, 3, 15, 10, 30, 5, "Asia/Tokyo"⟩ rfl).1

lemma processField_tags (loc k v : String) (data d : Data)
    (h : processField loc data k v = .ok d) :
    d.tags = data.tags ++ (if k = "CATEGORY" then [trimSpace v] else []) := by
  unfold processField at h
  split_ifs at h
  all_goals try split at h
  all_goals
    first
    | (injection h with h2; subst h2; simp [*])
    | exact Except.noConfusion h

/-- Claim C5: within a field section whose elements are all `FieldStmt`s, a
successful pass of the consumer appends the trimmed value of every
`CATEGORY` field to the tag list, in order of appearance, with no dropping,
merging or deduplication. -/
theorem category_fields_appended (loc : String) (fields : List Stmt) (data d : Data)
    (hf : ∀ s ∈ fields, isFieldStmt s = true)
    (h : parseFieldSection loc fields data = .ok d) :
    d.tags = data.tags ++ categoryValues fields := by
  induction fields generalizing data with
  | nil =>
    injection h with h2
    subst h2
    simp [categoryValues]
  | cons s rest ih =>
    have hs : isFieldStmt s = true := hf s (List.mem_cons_self _ _)
    cases s with
    | fieldStmt k v =>
      simp only [parseFieldSection] at h
      split at h
      · rename_i d1 heq
        have htags := processField_tags loc k v data d1 heq
        have ht2 := ih d1 (fun s hs => hf s (List.mem_cons_of_mem _ hs)) h
        rw [ht2, htags]
        simp only [categoryValues]
        by_cases hk : k = "CATEGORY" <;> simp [hk]
      · rename_i e heq
        exact Except.noConfusion h
    | entryStmt l => simp [isFieldStmt] at hs
    | normalSectionStmt l => simp [isFieldStmt] at hs
    | multilineSectionStmt a b => simp [isFieldStmt] at hs

/-- Witness for claim C5: two categories around an unrelated field come out
trimmed, in order, duplicates kept. -/
theorem category_fields_appended_witness :
    ({ title := "t", tags := ["a", "a"] } : Data).tags
      = ({} : Data).tags ++ categoryValues
          [Stmt.fieldStmt "CATEGORY" "a", Stmt.fieldStmt "TITLE" "t",
            Stmt.fieldStmt "CATEGORY" " a "] :=
  category_fields_appended "UTC"
    [Stmt.fieldStmt "CATEGORY" "a", Stmt.fieldStmt "TITLE" "t",
      Stmt.fieldStmt "CATEGORY" " a "]
    {} { title := "t", tags := ["a", "a"] }
    (by intro s hs; simp only [List.mem_cons, List.not_mem_nil, or_false] at hs
        rcases hs with rfl | rfl | rfl <;> rfl)
    rfl

/-- Claim C7: trimming is a consumer-side concern: the value stored by each
recognised field key — title, basename, each tag, and the inputs to status
and date interpretation — is the field's raw value with leading and trailing
whitespace removed. -/
theorem values_trimmed_downstream (loc v : String) (data : Data) :
    processField loc data "TITLE" v = .ok { data with title := trimSpace v } ∧
    processField loc data "BASENAME" v = .ok { data with basename := trimSpace v } ∧
    processField loc data "CATEGORY" v = .ok { data with tags := data.tags ++ [trimSpace v] } ∧
    (stringToLower (trimSpace v) = "draft" →
      processField loc data "STATUS" v = .ok { data with draft := true }) ∧
    (∀ t, parseInLocation (trimSpace v) loc = some t →
      processField loc data "DATE" v = .ok { data with date := some t }) := by
  refine ⟨rfl, rfl, rfl, ?_, ?_⟩
  · intro h
    simp [processField, h]
  · intro t ht
    simp [processField, ht]

/-- Witness for claim C7: a padded upper-case status value is stored through
its trimmed (and lowercased) form. -/
theorem values_trimmed_downstream_witness :
    processField "UTC" ({} : Data) "STATUS" "  DRAFT  " = .ok { draft := true } :=
  (values_trimmed_downstream "UTC" "  DRAFT  " {}).2.2.2.1 rfl

/-- Claim C8: a field key outside the five recognised ones is accepted
without error and leaves the entry data unchanged. -/
theorem unknown_field_key_ignored (loc key v : String) (data : Data)
    (h : key ∉ (["TITLE", "STATUS", "DATE", "BASENAME", "CATEGORY"] : List String)) :
    processField loc data key v = .ok data := by
  simp only [List.mem_cons, List.not_mem_nil, or_false, not_or] at h
  obtain ⟨h1, h2, h3, h4, h5⟩ := h
  simp [processField, h1, h2, h3, h4, h5]

/-- Witness for claim C8: the real MT-export key `CONVERT BREAKS` is passed
over without touching the data. -/
theorem unknown_field_key_ignored_witness :
    processField "UTC" ({} : Data) "CONVERT BREAKS" "0" = .ok {} :=
  unknown_field_key_ignored "UTC" "CONVERT BREAKS" "0" {} (by decide)

lemma parseFieldSection_stop_nonfield (loc : String) (x : Stmt) (rest : List Stmt)
    (data : Data) (hx : isFieldStmt x = false) :
    parseFieldSection loc (x :: rest) data = .ok data := by
  cases x
  · rfl
  · rfl
  · rfl
  · simp [isFieldStmt] at hx

/-- Claim C9: a non-`FieldStmt` element inside a `NormalSectionStmt` makes
`parseFieldSection` return success right there: every later element of the
section is ignored and the data reflects exactly the fields before it. -/
theorem non_field_stmt_truncates_section (loc : String) (pre rest : List Stmt)
    (x : Stmt) (data : Data)
    (hpre : ∀ s ∈ pre, isFieldStmt s = true) (hx : isFieldStmt x = false) :
    parseFieldSection loc (pre ++ x :: rest) data = parseFieldSection loc pre data ∧
    parseFieldSection loc (x :: rest) data = .ok data := by
  refine ⟨?_, parseFieldSection_stop_nonfield loc x rest data hx⟩
  induction pre generalizing data with
  | nil =>
    simpa using parseFieldSection_stop_nonfield loc x rest data hx
  | cons s pre ih =>
    have hs : isFieldStmt s = true := hpre s (List.mem_cons_self _ _)
    cases s with
    | fieldStmt k v =>
      simp only [List.cons_append, parseFieldSection]
      cases hp : processField loc data k v with
      | ok d1 => simpa using ih d1 (fun s hs => hpre s (List.mem_cons_of_mem _ hs))
      | error e => rfl
    | entryStmt l => simp [isFieldStmt] at hs
    | normalSectionStmt l => simp [isFieldStmt] at hs
    | multilineSectionStmt a b => simp [isFieldStmt] at hs

/-- Witness for claim C9: a stray `MultilineSectionStmt` inside the field
list stops the walk: the field behind it is never applied and the section
succeeds with only the `TITLE` before it. -/
theorem non_field_stmt_truncates_section_witness :
    parseFieldSection "UTC"
        ([Stmt.fieldStmt "TITLE" "t"] ++
          Stmt.multilineSectionStmt "BODY" "b" :: [Stmt.fieldStmt "STATUS" "wrong"]) {}
      = parseFieldSection "UTC" [Stmt.fieldStmt "TITLE" "t"] ({} : Data) :=
  (non_field_stmt_truncates_section "UTC" [Stmt.fieldStmt "TITLE" "t"]
    [Stmt.fieldStmt "STATUS" "wrong"] (Stmt.multilineSectionStmt "BODY" "b") {}
    (by intro s hs; simp only [List.mem_singleton] at hs; subst hs; rfl) rfl).1

lemma foldl_quote (l : List String) (acc : List String) :
    l.foldl (fun a t => a ++ ["\"" ++ t ++ "\""]) acc
      = acc ++ l.map (fun t => "\"" ++ t ++ "\"") := by
  induction l generalizing acc with
  | nil => simp
  | cons x xs ih => simp [List.foldl_cons, ih]

/-- Claim C10: `TagsAsString` renders the tags each wrapped in double
quotes, joined by a comma and a space, inside square brackets; with no tags
it renders exactly the empty bracket pair. -/
theorem tags_as_string_shape (d : Data) :
    tagsAsString d = "[" ++ goJoin ", " (d.tags.map fun t => "\"" ++ t ++ "\"") ++ "]" ∧
    tagsAsString { d with tags := [] } = "[]" := by
  constructor
  · rw [tagsAsString, foldl_quote]
    simp
  · rfl
